import Mathlib

/-!
Verification development for the notoma repository (Notion → Markdown
converter).  The Python sources under `notoma/` are shallowly embedded:
dictionaries become association lists, Python exceptions become an explicit
`Except` error type, `datetime` values become a plain record, and character
strings handled by regexes are modelled at the level of character codes
(`List Nat`, ASCII range).  Each definition's doc comment names the source
function it embeds.
-/

deriving instance DecidableEq for Except

/-- Python exception kinds raised by the embedded code paths. -/
inductive PyError
  | attributeError
  | keyError
  | typeError
  | valueError
deriving DecidableEq

/-- A `datetime.datetime` value (UTC, second precision; the code paths
modelled here never inspect sub-second precision). -/
structure PyDateTime where
  year : Nat
  month : Nat
  day : Nat
  hour : Nat
  minute : Nat
  second : Nat
deriving DecidableEq

/-- A Python value as it can appear in a page-property / front-matter
mapping: `str`, `bool`, `list` of strings, `datetime`, `NotionDate`
(a date range with a `.start`), `int` (from `timetuple()`), `None`,
or any other object (kept opaque, carried by a tag string). -/
inductive Value
  | str (s : String)
  | boolean (b : Bool)
  | strList (l : List String)
  | date (d : PyDateTime)
  | notionDate (start stop : PyDateTime)
  | int (n : Nat)
  | pyNone
  | other (tag : String)
deriving DecidableEq

/-- Python `dict` lookup on an association list (keys compared litterally,
first binding wins, as in a dict where keys are unique). -/
def lookupKey (k : String) : List (String × α) → Option α
  | [] => none
  | (k2, v) :: rest => if k2 = k then some v else lookupKey k rest

/-- Python `d[k] = v`: update in place if the key exists (keeping its
insertion position, as Python dicts do), else append. -/
def setKey (k : String) (v : α) : List (String × α) → List (String × α)
  | [] => [(k, v)]
  | (k2, v2) :: rest => if k2 = k then (k2, v) :: rest else (k2, v2) :: setKey k v rest

/-- `CONF_MAP` from src/notoma/config.py: configuration key → environment
variable name. -/
def CONF_MAP : List (String × String) :=
  [("token_v2", "NOTOMA_NOTION_TOKEN_V2"),
   ("blog_url", "NOTOMA_NOTION_BLOG_URL"),
   ("default_layout", "NOTOMA_DEFAULT_LAYOUT"),
   ("permalink_pattern", "NOTOMA_PERMALINK_PATTERN"),
   ("baseurl", "NOTOMA_BASE_URL")]

/-- The state of a `Config` object (src/notoma/config.py): its private
`__config` dict, mapping keys to `os.environ.get(...)` results (`Option`,
since a variable may be unset). -/
structure Config where
  config : List (String × Option String)
deriving DecidableEq

/-- `Config.__init__` (src/notoma/config.py lines 25-38): build the dict
from `CONF_MAP` via the environment `env`, then override with every kwarg
whose value is not `None`. -/
def Config.init (env : String → Option String) (kwargs : List (String × Option String)) : Config :=
  ⟨kwargs.foldl (fun d p => if p.2.isSome then setKey p.1 p.2 d else d)
    (CONF_MAP.map (fun p => (p.1, env p.2)))⟩

/-- `Config.__getitem__` (src/notoma/config.py lines 48-49): plain dict
lookup; a key absent from the dict raises `KeyError`. -/
def Config.getitem (c : Config) (k : String) : Except PyError (Option String) :=
  match lookupKey k c.config with
  | some v => Except.ok v
  | none => Except.error PyError.keyError

/-- Restriction to ASCII of Python's Unicode-aware regex class `\s`:
space, tab, newline, vertical tab, form feed, carriage return.  The real
`\s` also matches Unicode whitespace (e.g. U+00A0); codes ≥ 128 are
outside this model's faithful domain. -/
def isSpacePy (n : Nat) : Bool := n == 32 || (9 ≤ n && n ≤ 13)

/-- Restriction to ASCII of Python's Unicode-aware regex class `\w`:
digits, letters, underscore.  The real `\w` also matches Unicode letters
(e.g. `İ`, U+0130); codes ≥ 128 are outside this model's faithful
domain. -/
def isWordPy (n : Nat) : Bool :=
  (48 ≤ n && n ≤ 57) || (65 ≤ n && n ≤ 90) || (97 ≤ n && n ≤ 122) || n == 95

/-- The character class `[\w\-]` kept by `__title_to_slug`. -/
def keepPy (n : Nat) : Bool := isWordPy n || n == 45

/-- Restriction to ASCII of Python's `str.lower` on one character code.
Real Unicode lowercasing can change length (`'İ'.lower()` is
`'i' + U+0307`); codes ≥ 128 are outside this model's faithful
domain. -/
def lowerPy (n : Nat) : Nat := if 65 ≤ n && n ≤ 90 then n + 32 else n

/-- `re.sub(r"\s+", "-", ·)`: replace every maximal run of whitespace by a
single hyphen (code 45).  The boolean records whether we are inside a
whitespace run whose hyphen has already been emitted. -/
def collapseWs : Bool → List Nat → List Nat
  | _, [] => []
  | inRun, c :: cs =>
    if isSpacePy c then
      if inRun then collapseWs true cs else 45 :: collapseWs true cs
    else c :: collapseWs false cs

/-- `__title_to_slug` (src/notoma/page.py lines 23-24) at the level of
character codes: collapse whitespace runs to hyphens, strip every
character outside `[\w\-]`, lowercase.  Built from the ASCII
restrictions above, so it agrees with the Python function exactly on
titles whose codes are all < 128 and diverges outside that domain
(real `\w` keeps Unicode letters and real `.lower()` can emit combining
marks); character-level universal statements are therefore made only
under an all-ASCII hypothesis. -/
def slugify (t : List Nat) : List Nat :=
  ((collapseWs false t).filter keepPy).map lowerPy

/-- Character codes of a string. -/
def codesOf (s : String) : List Nat := s.data.map Char.toNat

/-- String from character codes (all codes produced by `slugify` on valid
input are valid scalar values). -/
def stringOfCodes (l : List Nat) : String := String.mk (l.map Char.ofNat)

/-- `__title_to_slug` (src/notoma/page.py lines 23-24) on strings. -/
def title_to_slug (s : String) : String := stringOfCodes (slugify (codesOf s))

/-- `datetime.utcfromtimestamp(ms / 1000)` for an epoch-millisecond input,
as used by `front_matter` (src/notoma/page.py lines 39-41): proleptic
Gregorian civil-from-days conversion, second precision. -/
def utcFromTimestampMs (ms : Nat) : PyDateTime :=
  let secs := ms / 1000
  let days := secs / 86400
  let rem := secs % 86400
  let z := days + 719468
  let era := z / 146097
  let doe := z % 146097
  let yoe := (doe - doe / 1460 + doe / 36524 - doe / 146096) / 365
  let doy := doe - (365 * yoe + yoe / 4 - yoe / 100)
  let mp := (5 * doy + 2) / 153
  let d := doy - (153 * mp + 2) / 5 + 1
  let m := if mp < 10 then mp + 3 else mp - 9
  let y := if m ≤ 2 then yoe + era * 400 + 1 else yoe + era * 400
  ⟨y, m, d, rem / 3600, rem % 3600 / 60, rem % 60⟩

/-- The value rewriting done by one iteration of `__sanitize_front_matter`
(src/notoma/page.py lines 49-57): a value whose type is neither `str` nor
`list` is replaced by its `.start` when it is a `NotionDate`, and by
`str(v).lower()` (exactly `"true"`/`"false"`) when it is a `bool`; every
other value is left untouched. -/
def sanitizeValue : Value → Value
  | Value.notionDate start _ => Value.date start
  | Value.boolean b => Value.str (if b then "true" else "false")
  | v => v

/-- `__sanitize_front_matter` (src/notoma/page.py lines 49-57): rewrite
each value of the dict in place. -/
def sanitize_front_matter (items : List (String × Value)) : List (String × Value) :=
  items.map (fun kv => (kv.1, sanitizeValue kv.2))

/-- `front_matter` (src/notoma/page.py lines 27-46).  The page argument is
factored into its property mapping (`page.get_all_properties()`) and its
`last_edited_time` epoch-millisecond integer.  When `"layout"` is absent
the source evaluates `config.default_layout`; `Config`
(src/notoma/config.py) defines only `token_v2` and `blog_url` as
properties and has no `default_layout` attribute, so that expression
raises `AttributeError` for every configuration. -/
def front_matter (props : List (String × Value)) (lastEditedMs : Nat) (cfg : Config) :
    Except PyError (List (String × Value)) :=
  match lookupKey "layout" props with
  | none =>
    -- `all_props["layout"] = config.default_layout` — attribute missing.
    let _ := cfg
    Except.error PyError.attributeError
  | some _ =>
    let all_props := props
    let all_props :=
      match lookupKey "published_at" all_props with
      | none => setKey "published_at" (Value.date (utcFromTimestampMs lastEditedMs)) all_props
      | some _ => all_props
    let renderables := all_props.filter (fun kv => kv.2 ≠ Value.str "")
    Except.ok (sanitize_front_matter renderables)

/-- Zero-padding helper for Python's `str(datetime)` rendering. -/
def pad2 (n : Nat) : String := if n < 10 then "0" ++ toString n else toString n

/-- Python `str(v)` as applied by `string.Template.substitute` to a looked
up mapping value.  `str` of a `datetime` is `"YYYY-MM-DD HH:MM:SS"`; `str`
of a list renders the quoted items; `str(True)` is `"True"`; `NotionDate`
and opaque objects render as their `repr` (modelled by a tag). -/
def pyStr : Value → String
  | Value.str s => s
  | Value.boolean b => if b then "True" else "False"
  | Value.strList l =>
    "[" ++ String.intercalate ", " (l.map (fun s => "'" ++ s ++ "'")) ++ "]"
  | Value.date d =>
    toString d.year ++ "-" ++ pad2 d.month ++ "-" ++ pad2 d.day ++ " " ++
      pad2 d.hour ++ ":" ++ pad2 d.minute ++ ":" ++ pad2 d.second
  | Value.notionDate _ _ => "<NotionDate>"
  | Value.int n => toString n
  | Value.pyNone => "None"
  | Value.other tag => tag

/-- One item of a parsed `string.Template` pattern: a literal piece or a
named placeholder (the `${name}` syntax prescribed by the spec for
permalink patterns). -/
inductive TItem
  | lit (s : String)
  | ph (name : String)
deriving DecidableEq

/-- `string.Template.substitute` (Python stdlib, as invoked by
`build_page_url`, src/notoma/page.py line 86): scan the parsed pattern
left to right, replacing each `${name}` by `str(mapping[name])`; the
first placeholder whose name is absent from the mapping raises
`KeyError`. -/
def substitute (tmpl : List TItem) (subs : List (String × Value)) : Except PyError String :=
  match tmpl with
  | [] => Except.ok ""
  | TItem.lit s :: rest =>
    match substitute rest subs with
    | Except.error e => Except.error e
    | Except.ok r => Except.ok (s ++ r)
  | TItem.ph n :: rest =>
    match lookupKey n subs with
    | none => Except.error PyError.keyError
    | some v =>
      match substitute rest subs with
      | Except.error e => Except.error e
      | Except.ok r => Except.ok (pyStr v ++ r)

/-- Lift the `Option String` stored under `"baseurl"` in a config into the
value stored by `subs["baseurl"] = config["baseurl"]` (which may be the
Python `None`). -/
def optToValue : Option String → Value
  | some s => Value.str s
  | none => Value.pyNone

/-- Python `"/".join(s)` for a string argument `s`: joins its characters
(reachable in `page_url_substitutions` when `"categories"` holds a
string). -/
def joinSlash (s : String) : String :=
  String.intercalate "/" (s.data.map (fun c => String.mk [c]))

/-- Third step of `page_url_substitutions` (src/notoma/page.py lines
78-79): when `"published_at"` is present, unpack `timetuple()` into
`year`, `month`, `day` keys.  `timetuple` exists on `datetime` values
only; on any other value the attribute access raises `AttributeError`. -/
def pusPublishedAt (subs : List (String × Value)) : Except PyError (List (String × Value)) :=
  match lookupKey "published_at" subs with
  | none => Except.ok subs
  | some (Value.date d) =>
    Except.ok (setKey "day" (Value.int d.day)
      (setKey "month" (Value.int d.month)
        (setKey "year" (Value.int d.year) subs)))
  | some _ => Except.error PyError.attributeError

/-- Second step of `page_url_substitutions` (src/notoma/page.py lines
73-76): `"/".join` a present `"categories"` value (a `TypeError` for a
non-iterable value), or default the key to the empty string. -/
def pusCategories (subs : List (String × Value)) : Except PyError (List (String × Value)) :=
  match lookupKey "categories" subs with
  | none => pusPublishedAt (setKey "categories" (Value.str "") subs)
  | some (Value.strList l) =>
    pusPublishedAt (setKey "categories" (Value.str (String.intercalate "/" l)) subs)
  | some (Value.str s) =>
    pusPublishedAt (setKey "categories" (Value.str (joinSlash s)) subs)
  | some _ => Except.error PyError.typeError

/-- Body of `page_url_substitutions` (src/notoma/page.py lines 60-81)
after the initial `subs = front_matter(page, config)` call, taking that
front matter as input: add `baseurl` from the config, slugify a present
`"title"` (a string is expected there; `re.sub` raises `TypeError`
otherwise), then the categories and published_at steps. -/
def page_url_substitutions_fm (fm : List (String × Value)) (cfg : Config) :
    Except PyError (List (String × Value)) :=
  match Config.getitem cfg "baseurl" with
  | Except.error e => Except.error e
  | Except.ok bu =>
    let subs := setKey "baseurl" (optToValue bu) fm
    match lookupKey "title" subs with
    | none => pusCategories subs
    | some (Value.str t) => pusCategories (setKey "title" (Value.str (title_to_slug t)) subs)
    | some _ => Except.error PyError.typeError

/-- Spec-side definition for C4, written from the claim's words: the
substitution mapping is the front matter extended with `baseurl` from the
configuration, `title` overwritten by its slugified form, `categories`
replaced by the slash-joined list when it is a list and by the empty
string when absent, and, when `published_at` is present, separate `year`,
`month`, `day` keys extracted from its calendar date. -/
def spec_substitutions (fm : List (String × Value)) (bu : Option String) :
    List (String × Value) :=
  let s1 := setKey "baseurl" (optToValue bu) fm
  let s2 :=
    match lookupKey "title" s1 with
    | some (Value.str t) => setKey "title" (Value.str (title_to_slug t)) s1
    | _ => s1
  let s3 :=
    match lookupKey "categories" s2 with
    | some (Value.strList l) => setKey "categories" (Value.str (String.intercalate "/" l)) s2
    | none => setKey "categories" (Value.str "") s2
    | _ => s2
  match lookupKey "published_at" s3 with
  | some (Value.date d) =>
    setKey "day" (Value.int d.day) (setKey "month" (Value.int d.month)
      (setKey "year" (Value.int d.year) s3))
  | _ => s3

/-- `build_page_url` (src/notoma/page.py lines 84-86) factored over the
front matter already computed from the page: substitute the pattern with
`page_url_substitutions`. -/
def build_page_url_fm (fm : List (String × Value)) (pattern : List TItem) (cfg : Config) :
    Except PyError String :=
  match page_url_substitutions_fm fm cfg with
  | Except.error e => Except.error e
  | Except.ok subs => substitute pattern subs

/-- A Notion content block, tagged by its `notion.block` class
(src/notoma/core.py dispatches on these classes; they are sibling
subclasses of `Block`, so the `isinstance` chain is tag dispatch). -/
inductive Block
  | text (title : String)
  | header (title : String)
  | subheader (title : String)
  | subsubheader (title : String)
  | quote (title : String)
  | bulleted (title : String)
  | numbered (title : String)
  | code (language title : String)
  | callout (icon title : String)
  | divider
  | unsupported
deriving DecidableEq

/-- `isinstance(block, NumberedListBlock)`. -/
def isNumberedBlock : Block → Bool
  | Block.numbered _ => true
  | _ => false

/-- `block2md` (src/notoma/core.py lines 26-63): map one block to its
Markdown fragment; a numbered item renders the current counter value;
every unhandled class renders as the empty string (the source gives
`counter` the default value 1). -/
def block2md (b : Block) (counter : Nat) : String :=
  match b with
  | Block.text title => title
  | Block.header title => "# " ++ title
  | Block.subheader title => "## " ++ title
  | Block.subsubheader title => "### " ++ title
  | Block.quote title => "> " ++ title
  | Block.bulleted title => "- " ++ title
  | Block.numbered title => toString counter ++ ". " ++ title
  | Block.code language title => "\n```" ++ language ++ "\n" ++ title ++ "\n```\n"
  | Block.callout icon title => "> " ++ icon ++ " " ++ title
  | Block.divider => "\n"
  | Block.unsupported => ""

/-- The block loop of `page2md` (src/notoma/core.py lines 68-79): render
each block with the running counter, then increment the counter after a
numbered-list block and reset it to 1 after anything else. -/
def page2mdBlocks : List Block → Nat → List String
  | [], _ => []
  | b :: bs, counter =>
    block2md b counter :: page2mdBlocks bs (if isNumberedBlock b then counter + 1 else 1)

/-- The body produced by `page2md` (src/notoma/core.py line 81) after the
front-matter header: the rendered blocks joined by single newlines, with
the counter initialized to 1. -/
def page2mdBody (children : List Block) : String :=
  String.intercalate "\n" (page2mdBlocks children 1)

/-- Spec-side definition for C3/C10, written from the spec's counter
state machine: the sequence of counter values the machine holds when each
block is rendered — emit the current value, increment it after a
numbered-list block, reset it to 1 after any other block. -/
def counterSeq : List Block → Nat → List Nat
  | [], _ => []
  | b :: bs, c => c :: counterSeq bs (if isNumberedBlock b then c + 1 else 1)

/-- A block together with its Notion block id, as traversed by
`__numbered_list_index` (ids are modelled as naturals). -/
structure IBlock where
  id : Nat
  blk : Block
deriving DecidableEq

/-- Default block used with `List.getD`. -/
def defIBlock : IBlock := ⟨0, Block.divider⟩

/-- The loop of `__numbered_list_index` (src/notoma/templates.py lines
119-133) with its running `index`: return the index at the numbered block
whose id matches, increment past other numbered blocks, reset to 1 at
non-numbered blocks, and raise `ValueError` when the block is absent. -/
def numberedListIndexAux (thisId : Nat) : List IBlock → Nat → Except PyError Nat
  | [], _ => Except.error PyError.valueError
  | c :: cs, index =>
    if isNumberedBlock c.blk then
      if c.id = thisId then Except.ok index
      else numberedListIndexAux thisId cs (index + 1)
    else numberedListIndexAux thisId cs 1

/-- `__numbered_list_index` (src/notoma/templates.py lines 119-133): the
traversal starts with `index = 1` over the page's children. -/
def numbered_list_index (children : List IBlock) (thisId : Nat) : Except PyError Nat :=
  numberedListIndexAux thisId children 1

/-- An inline style/link modifier of a Notion text chunk: a type tag
(`"p"` marks a page link, `"a"` a rewritten anchor) and its payload. -/
abbrev Modifier := String × String

/-- One chunk of a raw Notion `properties.title` value: a text fragment
and its modifier list (a chunk without formatting has an empty list,
matching the source's `len(chunk) > 1` guard). -/
abbrev Chunk := String × List Modifier

/-- The data of a `CollectionRowBlock` reachable from a link target: its
parent-collection id, title, property mapping and last edited time. -/
structure PageInfo where
  parent : String
  title : String
  props : List (String × Value)
  lastEditedMs : Nat
deriving DecidableEq

/-- `page_url_substitutions` (src/notoma/page.py lines 60-81) at page
level: compute the front matter, then the substitution steps. -/
def page_url_substitutions (page : PageInfo) (cfg : Config) :
    Except PyError (List (String × Value)) :=
  match front_matter page.props page.lastEditedMs cfg with
  | Except.error e => Except.error e
  | Except.ok fm => page_url_substitutions_fm fm cfg

/-- `build_page_url` (src/notoma/page.py lines 84-86) at page level. -/
def build_page_url (page : PageInfo) (pattern : List TItem) (cfg : Config) :
    Except PyError String :=
  match page_url_substitutions page cfg with
  | Except.error e => Except.error e
  | Except.ok subs => substitute pattern subs

/-- `__get_linked_page` (src/notoma/templates.py lines 67-74): resolve the
target page by id through the client (modelled by `env`), and raise
`ValueError` (the cross-collection link error) unless it has the same
parent as the current page. -/
def get_linked_page (env : String → PageInfo) (thisParent : String) (pageId : String) :
    Except PyError PageInfo :=
  let linked := env pageId
  if linked.parent = thisParent then Except.ok linked
  else Except.error PyError.valueError

/-- Parser for `string.Template` patterns restricted to the `${name}`
placeholder syntax the spec prescribes for permalink patterns (the
stdlib's `$name`/`$$` forms are unused by this repository's patterns). -/
def parseTemplateAux : Bool → List Char → List TItem → List Char → List TItem
  | true, acc, items, [] => items ++ [TItem.ph (String.mk acc.reverse)]
  | false, acc, items, [] =>
    if acc.isEmpty then items else items ++ [TItem.lit (String.mk acc.reverse)]
  | true, acc, items, c :: rest =>
    if c = '\x7d' then parseTemplateAux false [] (items ++ [TItem.ph (String.mk acc.reverse)]) rest
    else parseTemplateAux true (c :: acc) items rest
  | false, acc, items, '$' :: '\x7b' :: rest =>
    parseTemplateAux true []
      (if acc.isEmpty then items else items ++ [TItem.lit (String.mk acc.reverse)]) rest
  | false, acc, items, c :: rest => parseTemplateAux false (c :: acc) items rest

/-- Parse a permalink pattern string into template items. -/
def parseTemplate (s : String) : List TItem := parseTemplateAux false [] [] s.data

/-- `__linked_page_url` (src/notoma/templates.py lines 77-86): build the
target page's URL from the configured permalink pattern.  The source's
`if pattern is None` test compares the `Template` object (never `None`),
so a missing `permalink_pattern` surfaces later as the `TypeError` that
`Template(None).substitute` raises. -/
def linked_page_url (cfg : Config) (page : PageInfo) : Except PyError String :=
  match Config.getitem cfg "permalink_pattern" with
  | Except.error e => Except.error e
  | Except.ok none => Except.error PyError.typeError
  | Except.ok (some p) => build_page_url page (parseTemplate p) cfg

/-- The inner modifier loop of `__preprocess_notion_links`
(src/notoma/templates.py lines 160-174), threading the chunk text: a
`"p"` modifier resolves the linked page, is rewritten to an `"a"`
modifier carrying the page URL, and overwrites the chunk text with the
page title; other modifiers pass through. -/
def processMods (env : String → PageInfo) (parent : String) (cfg : Config) :
    List Modifier → String → Except PyError (String × List Modifier)
  | [], text => Except.ok (text, [])
  | m :: rest, text =>
    if m.1 = "p" then
      Except.bind (get_linked_page env parent m.2) (fun page =>
        Except.bind (linked_page_url cfg page) (fun url =>
          Except.bind (processMods env parent cfg rest page.title) (fun r =>
            Except.ok (r.1, ("a", url) :: r.2))))
    else
      Except.bind (processMods env parent cfg rest text) (fun r =>
        Except.ok (r.1, m :: r.2))

/-- Process one chunk of `__preprocess_notion_links`. -/
def processChunk (env : String → PageInfo) (parent : String) (cfg : Config) (c : Chunk) :
    Except PyError Chunk :=
  match processMods env parent cfg c.2 c.1 with
  | Except.error e => Except.error e
  | Except.ok (t, ms) => Except.ok (t, ms)

/-- Sequential processing of a list with error propagation (the `for`
loops of `__preprocess_notion_links` mutate the chunks in place and stop
at the first raised exception). -/
def mapExcept (f : α → Except PyError β) : List α → Except PyError (List β)
  | [] => Except.ok []
  | a :: as =>
    match f a with
    | Except.error e => Except.error e
    | Except.ok b =>
      match mapExcept f as with
      | Except.error e => Except.error e
      | Except.ok bs => Except.ok (b :: bs)

/-- `notion.markdown.notion_to_markdown` — an external library
collaborator, not part of this repository; no claim depends on its
rendering, so it is modelled as plain concatenation of the chunk
texts. -/
def notion_to_markdown (chunks : List Chunk) : String :=
  String.join (chunks.map (fun c => c.1))

/-- `__preprocess_notion_links` (src/notoma/templates.py lines 152-176):
an empty or missing raw title yields the empty string; otherwise every
chunk's modifiers are processed (a cross-collection link raising
`ValueError` aborts the whole call) and the rewritten chunks are handed
to the external Markdown renderer. -/
def preprocess_notion_links (env : String → PageInfo) (thisParent : String) (cfg : Config) :
    Option (List Chunk) → Except PyError String
  | none => Except.ok ""
  | some chunks =>
    if chunks.length = 0 then Except.ok ""
    else
      match mapExcept (processChunk env thisParent cfg) chunks with
      | Except.error e => Except.error e
      | Except.ok cs => Except.ok (notion_to_markdown cs)

/-- `Except.isOk`: whether a computation returned (rather than raised). -/
def exceptIsOk : Except PyError α → Bool
  | Except.ok _ => true
  | Except.error _ => false

/-- The permalink-scenario front matter: `published_at` = 2021-05-03 and
title `"My Post"` (with a layout key so that `front_matter` would have
produced it). -/
def scenarioFm : List (String × Value) :=
  [("layout", Value.str "post"),
   ("title", Value.str "My Post"),
   ("published_at", Value.date ⟨2021, 5, 3, 0, 0, 0⟩)]

/-- The permalink-scenario configuration: `baseurl` = `"https://x.io"`. -/
def scenarioCfg : Config := Config.init (fun _ => none) [("baseurl", some "https://x.io")]

/-- The permalink-scenario pattern `"${baseurl}/${year}/${month}/${title}"`. -/
def scenarioPattern : List TItem :=
  [TItem.ph "baseurl", TItem.lit "/", TItem.ph "year", TItem.lit "/",
   TItem.ph "month", TItem.lit "/", TItem.ph "title"]

/-- The substitution mapping the scenario produces. -/
def scenarioSubs : List (String × Value) :=
  [("layout", Value.str "post"),
   ("title", Value.str "my-post"),
   ("published_at", Value.date ⟨2021, 5, 3, 0, 0, 0⟩),
   ("baseurl", Value.str "https://x.io"),
   ("categories", Value.str ""),
   ("year", Value.int 2021),
   ("month", Value.int 5),
   ("day", Value.int 3)]

/-- Shape check used by C4: `"title"` holds a string when present. -/
def okTitle : Option Value → Bool
  | none => true
  | some (Value.str _) => true
  | some _ => false

/-- Shape check used by C4: `"categories"` holds a string list when
present. -/
def okCategories : Option Value → Bool
  | none => true
  | some (Value.strList _) => true
  | some _ => false

/-- Shape check used by C4: `"published_at"` holds a datetime when
present. -/
def okPublishedAt : Option Value → Bool
  | none => true
  | some (Value.date _) => true
  | some _ => false

/-- A front matter is well shaped for permalink building when its
`title`, `categories` and `published_at` keys (if present) hold a string,
a string list and a datetime respectively — the shapes the spec's data
model assigns them. -/
def wfFrontMatter (fm : List (String × Value)) : Bool :=
  okTitle (lookupKey "title" fm) &&
  okCategories (lookupKey "categories" fm) &&
  okPublishedAt (lookupKey "published_at" fm)

/-- Character set claimed by the spec for slugs: lowercase ASCII letters,
digits, hyphen. -/
def lowerAlnumHyphen (n : Nat) : Bool :=
  (97 ≤ n && n ≤ 122) || (48 ≤ n && n ≤ 57) || n == 45

/-- Character set the code actually produces: lowercase ASCII letters,
digits, hyphen, underscore (`\w` keeps the underscore). -/
def slugChar (n : Nat) : Bool :=
  (97 ≤ n && n ≤ 122) || (48 ≤ n && n ≤ 57) || n == 45 || n == 95

/-- Cross-collection scenario: every page the client resolves lives in
collection `"colB"`. -/
def envW : String → PageInfo := fun pid => ⟨"colB", "Linked " ++ pid, [], 0⟩

/-- Cross-collection scenario: a text run whose single modifier links to
page `"pid1"`. -/
def chunksW : List Chunk := [("hello", [("p", "pid1")])]

/-- Numbering-equivalence scenario: numbered, numbered, paragraph,
numbered, with distinct ids. -/
def csW : List IBlock :=
  [⟨10, Block.numbered "a"⟩, ⟨11, Block.numbered "b"⟩,
   ⟨12, Block.text "t"⟩, ⟨13, Block.numbered "c"⟩]

theorem lookup_setKey_self (k : String) (v : α) :
    ∀ l : List (String × α), lookupKey k (setKey k v l) = some v := by
  intro l
  induction l with
  | nil => simp [setKey, lookupKey]
  | cons p rest ih =>
    by_cases h : p.1 = k
    · simp [setKey, lookupKey, h]
    · simp [setKey, lookupKey, h, ih]

theorem lookup_setKey_ne {k1 k : String} (h : k1 ≠ k) (v : α) :
    ∀ l : List (String × α), lookupKey k (setKey k1 v l) = lookupKey k l := by
  intro l
  induction l with
  | nil => simp [setKey, lookupKey, h]
  | cons p rest ih =>
    by_cases hp : p.1 = k1
    · simp [setKey, lookupKey, hp, h, ih]
    · by_cases hk : p.1 = k
      · simp [setKey, lookupKey, hp, hk, Ne.symm h]
      · simp [setKey, lookupKey, hp, hk, ih]

theorem keepPy_iff (n : Nat) :
    keepPy n = true ↔
      (48 ≤ n ∧ n ≤ 57) ∨ (65 ≤ n ∧ n ≤ 90) ∨ (97 ≤ n ∧ n ≤ 122) ∨ n = 95 ∨ n = 45 := by
  simp [keepPy, isWordPy, Bool.or_eq_true, Bool.and_eq_true, decide_eq_true_eq,
    beq_iff_eq, or_assoc]

theorem slugChar_iff (n : Nat) :
    slugChar n = true ↔ (97 ≤ n ∧ n ≤ 122) ∨ (48 ≤ n ∧ n ≤ 57) ∨ n = 45 ∨ n = 95 := by
  simp [slugChar, Bool.or_eq_true, Bool.and_eq_true, decide_eq_true_eq, beq_iff_eq, or_assoc]

theorem isSpacePy_iff (n : Nat) : isSpacePy n = true ↔ n = 32 ∨ (9 ≤ n ∧ n ≤ 13) := by
  simp [isSpacePy, Bool.or_eq_true, Bool.and_eq_true, decide_eq_true_eq, beq_iff_eq]

theorem lowerPy_eq (n : Nat) : lowerPy n = if 65 ≤ n ∧ n ≤ 90 then n + 32 else n := by
  unfold lowerPy
  by_cases hc : 65 ≤ n ∧ n ≤ 90
  · rw [if_pos (by simpa [Bool.and_eq_true, decide_eq_true_eq] using hc), if_pos hc]
  · rw [if_neg (by simpa [Bool.and_eq_true, decide_eq_true_eq] using hc), if_neg hc]

theorem keep_lower (n : Nat) (h : keepPy n = true) :
    slugChar (lowerPy n) = true ∧ keepPy (lowerPy n) = true ∧
    isSpacePy (lowerPy n) = false ∧ lowerPy (lowerPy n) = lowerPy n := by
  have h' := (keepPy_iff n).mp h
  have hno : ¬(65 ≤ lowerPy n ∧ lowerPy n ≤ 90) := by
    rw [lowerPy_eq]; split <;> omega
  refine ⟨(slugChar_iff _).mpr ?_, (keepPy_iff _).mpr ?_, ?_, ?_⟩
  · rw [lowerPy_eq]; split <;> omega
  · rw [lowerPy_eq]; split <;> omega
  · rw [Bool.eq_false_iff]
    intro hs
    have hs' := (isSpacePy_iff _).mp hs
    rw [lowerPy_eq] at hs'
    revert hs'
    split <;> omega
  · rw [lowerPy_eq (lowerPy n), if_neg hno]

theorem mem_slugify {c : Nat} {t : List Nat} (h : c ∈ slugify t) :
    ∃ d, keepPy d = true ∧ c = lowerPy d := by
  simp only [slugify, List.mem_map, List.mem_filter] at h
  obtain ⟨d, ⟨_, hk⟩, rfl⟩ := h
  exact ⟨d, hk, rfl⟩

theorem collapseWs_no_space :
    ∀ {l : List Nat}, (∀ c ∈ l, isSpacePy c = false) → collapseWs false l = l := by
  intro l
  induction l with
  | nil => intro _; rfl
  | cons c cs ih =>
    intro h
    have hc := h c (List.mem_cons_self c cs)
    simp only [collapseWs, hc, Bool.false_eq_true, if_false, List.cons.injEq, true_and]
    exact ih (fun d hd => h d (List.mem_cons_of_mem c hd))

theorem map_id_of_mem {f : α → α} :
    ∀ {l : List α}, (∀ a ∈ l, f a = a) → l.map f = l := by
  intro l
  induction l with
  | nil => intro _; rfl
  | cons a l ih =>
    intro h
    simp only [List.map_cons, h a (List.mem_cons_self a l), List.cons.injEq, true_and]
    exact ih (fun b hb => h b (List.mem_cons_of_mem a hb))

theorem slugify_idem (t : List Nat) : slugify (slugify t) = slugify t := by
  have hprops : ∀ c ∈ slugify t, keepPy c = true ∧ isSpacePy c = false ∧ lowerPy c = c := by
    intro c hc
    obtain ⟨d, hk, rfl⟩ := mem_slugify hc
    obtain ⟨_, h2, h3, h4⟩ := keep_lower d hk
    exact ⟨h2, h3, h4⟩
  show ((collapseWs false (slugify t)).filter keepPy).map lowerPy = slugify t
  rw [collapseWs_no_space (fun c hc => (hprops c hc).2.1)]
  rw [List.filter_eq_self.mpr (fun c hc => (hprops c hc).1)]
  exact map_id_of_mem (fun c hc => (hprops c hc).2.2)

/-- C1: the claim says `front_matter` always outputs `layout` and
`published_at`, defaulting `layout` from the configuration — but the code
cannot default it: `config.default_layout` raises `AttributeError`
because `Config` has no such attribute, so any page-property mapping
without a `layout` key makes `front_matter` raise instead of producing a
front matter.  With `layout` present, the `published_at` default (the UTC
datetime for the page's epoch-millisecond `last_edited_time`) does get
added, as the second conjunct shows for 1620000000000 ms =
2021-05-03T00:00:00Z. -/
theorem c1_front_matter_attribute_error :
    front_matter [] 1620000000000 (Config.init (fun _ => none) []) =
      Except.error PyError.attributeError ∧
    front_matter [("layout", Value.str "post")] 1620000000000 (Config.init (fun _ => none) []) =
      Except.ok [("layout", Value.str "post"),
        ("published_at", Value.date ⟨2021, 5, 3, 0, 0, 0⟩)] := by
  exact ⟨rfl, by decide⟩

/-- C2 (counterexample): the title consisting of the single character
`_` (code 95) slugifies to itself, and that output is not made of
lowercase alphanumerics and hyphens only — the regex class `[\w\-]`
keeps the underscore, refuting the claimed character set. -/
theorem c2_slugify_counterexample :
    slugify [95] = [95] ∧ ¬(∀ c ∈ slugify [95], lowerAlnumHyphen c = true) := by
  decide

/-- C2 (amended): for every ASCII title — the domain on which this
embedding agrees with the Python code, see `slugify` — every character
of `slugify T` is a lowercase ASCII alphanumeric, a hyphen, or an
underscore; re-applying `slugify` to such an output is a no-op; and
`"Hello, World!"` slugifies to `"hello-world"`.  The ASCII bound is part
of the amended claim itself, not only of the model: on non-ASCII titles
the program violates both universal parts (Python's `str.lower` runs
after the regex strip and can introduce a combining mark, e.g.
`'İ'` → `'i' + U+0307`, which is not alphanumeric/hyphen/underscore and
which a second `slugify` strips, breaking idempotence). -/
theorem c2_slugify_amended :
    (∀ t : List Nat, (∀ c ∈ t, c < 128) → ∀ c ∈ slugify t, slugChar c = true) ∧
    (∀ t : List Nat, (∀ c ∈ t, c < 128) → slugify (slugify t) = slugify t) ∧
    slugify (codesOf "Hello, World!") = codesOf "hello-world" := by
  refine ⟨?_, fun t _ => slugify_idem t, by decide⟩
  intro t _ c hc
  obtain ⟨d, hk, rfl⟩ := mem_slugify hc
  exact (keep_lower d hk).1

/-- Witness for C2's amended theorem at the concrete title `[95]`. -/
theorem c2_slugify_amended_witness :
    (∀ c ∈ ([95] : List Nat), c < 128) ∧ slugChar 95 = true ∧
    slugify (slugify [95]) = slugify [95] :=
  ⟨by decide, c2_slugify_amended.1 [95] (by decide) 95 (by decide),
   c2_slugify_amended.2.1 [95] (by decide)⟩

/-- C5: sanitization maps booleans to the exact strings `"true"`/
`"false"`, reduces a date range to its start date, leaves strings,
lists, datetimes, ints, `None` and any other value untouched, and (being
a total function over every value shape) never raises. -/
theorem c5_sanitize_values :
    (∀ b, sanitizeValue (Value.boolean b) = Value.str (if b then "true" else "false")) ∧
    sanitizeValue (Value.boolean true) = Value.str "true" ∧
    sanitizeValue (Value.boolean false) = Value.str "false" ∧
    (∀ s e, sanitizeValue (Value.notionDate s e) = Value.date s) ∧
    (∀ s, sanitizeValue (Value.str s) = Value.str s) ∧
    (∀ l, sanitizeValue (Value.strList l) = Value.strList l) ∧
    (∀ d, sanitizeValue (Value.date d) = Value.date d) ∧
    (∀ n, sanitizeValue (Value.int n) = Value.int n) ∧
    sanitizeValue Value.pyNone = Value.pyNone ∧
    (∀ tg, sanitizeValue (Value.other tg) = Value.other tg) ∧
    (∀ items, sanitize_front_matter items = items.map (fun kv => (kv.1, sanitizeValue kv.2))) :=
  ⟨fun _ => rfl, rfl, rfl, fun _ _ => rfl, fun _ => rfl, fun _ => rfl, fun _ => rfl,
   fun _ => rfl, rfl, fun _ => rfl, fun _ => rfl⟩

theorem page2mdBlocks_eq_zipWith :
    ∀ (bs : List Block) (c : Nat),
      page2mdBlocks bs c = List.zipWith block2md bs (counterSeq bs c) := by
  intro bs
  induction bs with
  | nil => intro c; rfl
  | cons b bs ih => intro c; simp [page2mdBlocks, counterSeq, List.zipWith, ih]

/-- C3: the rendering loop of `page2md` realizes the spec's counter state
machine — each block is rendered with the counter value `counterSeq`
assigns it (start value threaded; `page2md` starts it at 1), and the
sequence [numbered, numbered, paragraph, numbered] renders as
1, 2, (reset), 1, not 1, 2, 3. -/
theorem c3_numbered_counter :
    (∀ (bs : List Block) (c : Nat),
      page2mdBlocks bs c = List.zipWith block2md bs (counterSeq bs c)) ∧
    (∀ bs : List Block,
      page2mdBody bs = String.intercalate "\n" (List.zipWith block2md bs (counterSeq bs 1))) ∧
    page2mdBlocks
      [Block.numbered "one", Block.numbered "two", Block.text "para", Block.numbered "three"] 1 =
      ["1. one", "2. two", "para", "1. three"] := by
  refine ⟨page2mdBlocks_eq_zipWith, ?_, by decide⟩
  intro bs
  rw [page2mdBody, page2mdBlocks_eq_zipWith]

/-- C9: a code block renders as an opening fence carrying the language, the
block text, and a closing fence, surrounded by blank lines; in particular
the python/print(1) block renders as `\n` + ```` ```python\nprint(1)\n``` ````
+ `\n`. -/
theorem c9_code_fence :
    (∀ (language title : String) (counter : Nat),
      block2md (Block.code language title) counter =
        "\n```" ++ language ++ "\n" ++ title ++ "\n```\n") ∧
    block2md (Block.code "python" "print(1)") 1 = "\n" ++ "```python\nprint(1)\n```" ++ "\n" := by
  exact ⟨fun _ _ _ => rfl, by decide⟩

theorem config_init_eq (env : String → Option String) (kwargs : List (String × Option String)) :
    (Config.init env kwargs).config =
      kwargs.foldl (fun d p => if p.2.isSome then setKey p.1 p.2 d else d)
        (CONF_MAP.map (fun p => (p.1, env p.2))) := rfl

theorem lookup_foldKwargs_no_override (k : String) :
    ∀ (kwargs : List (String × Option String)) (d : List (String × Option String)),
      (∀ p ∈ kwargs, p.1 = k → p.2 = none) →
      lookupKey k (kwargs.foldl (fun d p => if p.2.isSome then setKey p.1 p.2 d else d) d) =
        lookupKey k d := by
  intro kwargs
  induction kwargs with
  | nil => intro d _; rfl
  | cons q rest ih =>
    intro d h
    simp only [List.foldl_cons]
    by_cases hq : q.2.isSome = true
    · have hne : q.1 ≠ k := by
        intro he
        have hnone := h q (List.mem_cons_self q rest) he
        rw [hnone] at hq
        simp at hq
      rw [if_pos hq]
      rw [ih (setKey q.1 q.2 d) (fun p hp => h p (List.mem_cons_of_mem q hp))]
      exact lookup_setKey_ne hne q.2 d
    · rw [if_neg hq]
      exact ih d (fun p hp => h p (List.mem_cons_of_mem q hp))

theorem lookup_foldKwargs_isSome (k : String) :
    ∀ (kwargs : List (String × Option String)) (d : List (String × Option String)),
      (lookupKey k d).isSome = true →
      (lookupKey k
        (kwargs.foldl (fun d p => if p.2.isSome then setKey p.1 p.2 d else d) d)).isSome = true := by
  intro kwargs
  induction kwargs with
  | nil => intro d h; exact h
  | cons q rest ih =>
    intro d h
    simp only [List.foldl_cons]
    by_cases hq : q.2.isSome = true
    · rw [if_pos hq]
      apply ih
      by_cases hqk : q.1 = k
      · rw [hqk, lookup_setKey_self]; rfl
      · rw [lookup_setKey_ne hqk]; exact h
    · rw [if_neg hq]
      exact ih d h

theorem lookup_confmap_base (env : String → Option String) (k v : String)
    (h : (k, v) ∈ CONF_MAP) :
    lookupKey k (CONF_MAP.map (fun p => (p.1, env p.2))) = some (env v) := by
  simp only [CONF_MAP, List.mem_cons, List.not_mem_nil, or_false, Prod.mk.injEq] at h
  rcases h with ⟨rfl, rfl⟩ | ⟨rfl, rfl⟩ | ⟨rfl, rfl⟩ | ⟨rfl, rfl⟩ | ⟨rfl, rfl⟩ <;> rfl

/-- C8: looking a key of `CONF_MAP` (in particular `default_layout`,
`permalink_pattern`, `baseurl`) up on a constructed configuration never
raises: the lookup returns the environment's value for the key — the
Python `None` when nothing is configured — unless a kwarg overrode it. -/
theorem c8_config_lookup :
    ∀ (env : String → Option String) (kwargs : List (String × Option String)) (k v : String),
      (k, v) ∈ CONF_MAP →
      ∃ w, (Config.init env kwargs).getitem k = Except.ok w ∧
        ((∀ p ∈ kwargs, p.1 = k → p.2 = none) → w = env v) := by
  intro env kwargs k v hkv
  have hbase := lookup_confmap_base env k v hkv
  have hsome : (lookupKey k ((Config.init env kwargs).config)).isSome = true := by
    rw [config_init_eq]
    apply lookup_foldKwargs_isSome
    rw [hbase]
    rfl
  obtain ⟨w, hw⟩ := Option.isSome_iff_exists.mp hsome
  refine ⟨w, ?_, ?_⟩
  · unfold Config.getitem
    rw [hw]
  · intro hno
    have hcomb : lookupKey k ((Config.init env kwargs).config) = some (env v) := by
      rw [config_init_eq, lookup_foldKwargs_no_override k kwargs _ hno, hbase]
    rw [hw] at hcomb
    exact Option.some.inj hcomb

/-- Witness for C8 at the key `default_layout` with an empty environment
and no kwargs: the lookup resolves to `None` without raising. -/
theorem c8_config_lookup_witness :
    (Config.init (fun _ => none) []).getitem "default_layout" = Except.ok none := by
  obtain ⟨w, hw, hval⟩ :=
    c8_config_lookup (fun _ => none) [] "default_layout" "NOTOMA_DEFAULT_LAYOUT" (by decide)
  have hwn : w = none := hval (fun p hp => absurd hp (List.not_mem_nil p))
  rw [hwn] at hw
  exact hw

theorem substitute_cases :
    ∀ (pattern : List TItem) (subs : List (String × Value)),
      ((∃ e, substitute pattern subs = Except.error e) ↔
        ∃ n, TItem.ph n ∈ pattern ∧ lookupKey n subs = none) ∧
      (∀ e, substitute pattern subs = Except.error e → e = PyError.keyError) := by
  intro pattern subs
  induction pattern with
  | nil =>
    constructor
    · constructor
      · rintro ⟨e, he⟩
        simp [substitute] at he
      · rintro ⟨n, hn, _⟩
        simp at hn
    · intro e he
      simp [substitute] at he
  | cons it rest ih =>
    obtain ⟨ih1, ih2⟩ := ih
    cases it with
    | lit s =>
      cases hrec : substitute rest subs with
      | error e2 =>
        have hlhs : substitute (TItem.lit s :: rest) subs = Except.error e2 := by
          simp only [substitute, hrec]
        constructor
        · constructor
          · intro _
            obtain ⟨n, hn, hnone⟩ := ih1.mp ⟨e2, hrec⟩
            exact ⟨n, List.mem_cons_of_mem _ hn, hnone⟩
          · intro _
            exact ⟨e2, hlhs⟩
        · intro e he
          rw [hlhs] at he
          injection he with h
          rw [← h]
          exact ih2 e2 hrec
      | ok r =>
        have hlhs : substitute (TItem.lit s :: rest) subs = Except.ok (s ++ r) := by
          simp only [substitute, hrec]
        constructor
        · constructor
          · rintro ⟨e, he⟩
            rw [hlhs] at he
            exact Except.noConfusion he
          · rintro ⟨n, hn, hnone⟩
            have hn2 : TItem.ph n ∈ rest := by
              rcases List.mem_cons.mp hn with h1 | h1
              · simp at h1
              · exact h1
            obtain ⟨e, he⟩ := ih1.mpr ⟨n, hn2, hnone⟩
            rw [he] at hrec
            exact Except.noConfusion hrec
        · intro e he
          rw [hlhs] at he
          exact Except.noConfusion he
    | ph n0 =>
      cases hlook : lookupKey n0 subs with
      | none =>
        have hlhs : substitute (TItem.ph n0 :: rest) subs = Except.error PyError.keyError := by
          simp only [substitute, hlook]
        constructor
        · constructor
          · intro _
            exact ⟨n0, List.mem_cons_self _ _, hlook⟩
          · intro _
            exact ⟨PyError.keyError, hlhs⟩
        · intro e he
          rw [hlhs] at he
          injection he with h
          exact h.symm
      | some v =>
        cases hrec : substitute rest subs with
        | error e2 =>
          have hlhs : substitute (TItem.ph n0 :: rest) subs = Except.error e2 := by
            simp only [substitute, hlook, hrec]
          constructor
          · constructor
            · intro _
              obtain ⟨n, hn, hnone⟩ := ih1.mp ⟨e2, hrec⟩
              exact ⟨n, List.mem_cons_of_mem _ hn, hnone⟩
            · intro _
              exact ⟨e2, hlhs⟩
          · intro e he
            rw [hlhs] at he
            injection he with h
            rw [← h]
            exact ih2 e2 hrec
        | ok r =>
          have hlhs : substitute (TItem.ph n0 :: rest) subs = Except.ok (pyStr v ++ r) := by
            simp only [substitute, hlook, hrec]
          constructor
          · constructor
            · rintro ⟨e, he⟩
              rw [hlhs] at he
              exact Except.noConfusion he
            · rintro ⟨n, hn, hnone⟩
              rcases List.mem_cons.mp hn with h1 | h1
              · have hnn : n = n0 := by injection h1
                rw [hnn, hlook] at hnone
                exact Option.noConfusion hnone
              · obtain ⟨e, he⟩ := ih1.mpr ⟨n, h1, hnone⟩
                rw [he] at hrec
                exact Except.noConfusion hrec
          · intro e he
            rw [hlhs] at he
            exact Except.noConfusion he

/-- C6: substitution over a permalink pattern fails exactly when the
pattern holds a placeholder whose name is absent from the substitution
mapping, the raised error is always the `KeyError` that
`Template.substitute` raises (the spec's `TemplateError`), and once the
substitution mapping was computed successfully, `build_page_url` is
exactly that substitution — the error reaches the caller directly, with
no retry. -/
theorem c6_template_key_error :
    (∀ (pattern : List TItem) (subs : List (String × Value)),
      ((∃ e, substitute pattern subs = Except.error e) ↔
        ∃ n, TItem.ph n ∈ pattern ∧ lookupKey n subs = none) ∧
      (∀ e, substitute pattern subs = Except.error e → e = PyError.keyError)) ∧
    (∀ (fm : List (String × Value)) (cfg : Config) (pattern : List TItem)
        (subs : List (String × Value)),
      page_url_substitutions_fm fm cfg = Except.ok subs →
      build_page_url_fm fm pattern cfg = substitute pattern subs) := by
  refine ⟨substitute_cases, ?_⟩
  intro fm cfg pattern subs h
  simp only [build_page_url_fm, h]

/-- Witness for C6 at the scenario inputs. -/
theorem c6_template_key_error_witness :
    build_page_url_fm scenarioFm scenarioPattern scenarioCfg =
      substitute scenarioPattern scenarioSubs :=
  c6_template_key_error.2 scenarioFm scenarioCfg scenarioPattern scenarioSubs (by decide)

theorem except_bind_ok (a : α) (f : α → Except PyError β) :
    Except.bind (Except.ok a) f = f a := rfl

theorem except_bind_error (e : PyError) (f : α → Except PyError β) :
    Except.bind (Except.error e) f = Except.error e := rfl

theorem processMods_error :
    ∀ (env : String → PageInfo) (parent : String) (cfg : Config) (ms : List Modifier)
      (text : String),
      (∃ m ∈ ms, m.1 = "p" ∧ (env m.2).parent ≠ parent) →
      ∃ e, processMods env parent cfg ms text = Except.error e := by
  intro env parent cfg ms
  induction ms with
  | nil =>
    rintro text ⟨m, hm, _⟩
    cases hm
  | cons m0 rest ih =>
    rintro text ⟨m, hm, hp, hpar⟩
    by_cases hm0 : m0.1 = "p"
    · simp only [processMods]
      rw [if_pos hm0]
      cases hg : get_linked_page env parent m0.2 with
      | error e =>
        rw [except_bind_error]
        exact ⟨e, rfl⟩
      | ok page =>
        rw [except_bind_ok]
        cases hu : linked_page_url cfg page with
        | error e =>
          rw [except_bind_error]
          exact ⟨e, rfl⟩
        | ok url =>
          rw [except_bind_ok]
          rcases List.mem_cons.mp hm with rfl | hmrest
          · exfalso
            unfold get_linked_page at hg
            rw [if_neg hpar] at hg
            exact Except.noConfusion hg
          · obtain ⟨e, he⟩ := ih page.title ⟨m, hmrest, hp, hpar⟩
            rw [he, except_bind_error]
            exact ⟨e, rfl⟩
    · simp only [processMods]
      rw [if_neg hm0]
      have hmrest : m ∈ rest := by
        rcases List.mem_cons.mp hm with rfl | h2
        · exact absurd hp hm0
        · exact h2
      obtain ⟨e, he⟩ := ih text ⟨m, hmrest, hp, hpar⟩
      rw [he, except_bind_error]
      exact ⟨e, rfl⟩

theorem mapExcept_error {α β : Type} :
    ∀ (f : α → Except PyError β) (l : List α),
      (∃ a ∈ l, ∃ e, f a = Except.error e) →
      ∃ e, mapExcept f l = Except.error e := by
  intro f l
  induction l with
  | nil =>
    rintro ⟨a, ha, _⟩
    cases ha
  | cons a0 rest ih =>
    rintro ⟨a, ha, e0, he0⟩
    cases hf : f a0 with
    | error e =>
      exact ⟨e, by simp only [mapExcept, hf]⟩
    | ok b =>
      have harest : a ∈ rest := by
        rcases List.mem_cons.mp ha with rfl | h2
        · rw [hf] at he0
          exact Except.noConfusion he0
        · exact h2
      obtain ⟨e, he⟩ := ih ⟨a, harest, e0, he0⟩
      exact ⟨e, by simp only [mapExcept, hf, he]⟩

/-- C7: resolving a linked page whose parent collection differs from the
current page's parent raises the cross-collection `ValueError`
(`__get_linked_page`), and a chunk list containing such a link makes the
whole `__preprocess_notion_links` call raise instead of returning a
rendered string — no partial output is produced. -/
theorem c7_cross_collection_link :
    (∀ (env : String → PageInfo) (parent pid : String),
      (env pid).parent ≠ parent →
      get_linked_page env parent pid = Except.error PyError.valueError) ∧
    (∀ (env : String → PageInfo) (parent : String) (cfg : Config) (chunks : List Chunk),
      (∃ c ∈ chunks, ∃ m ∈ c.2, m.1 = "p" ∧ (env m.2).parent ≠ parent) →
      exceptIsOk (preprocess_notion_links env parent cfg (some chunks)) = false) := by
  constructor
  · intro env parent pid h
    unfold get_linked_page
    rw [if_neg h]
  · rintro env parent cfg chunks ⟨c, hc, m, hm, hp, hpar⟩
    have hchunk : ∃ e, processChunk env parent cfg c = Except.error e := by
      obtain ⟨e, he⟩ := processMods_error env parent cfg c.2 c.1 ⟨m, hm, hp, hpar⟩
      exact ⟨e, by simp only [processChunk, he]⟩
    obtain ⟨e, he⟩ := mapExcept_error (processChunk env parent cfg) chunks ⟨c, hc, hchunk⟩
    have hne : ¬chunks.length = 0 := by
      intro h0
      rw [List.length_eq_zero] at h0
      rw [h0] at hc
      cases hc
    simp only [preprocess_notion_links]
    rw [if_neg hne, he]
    rfl

/-- Witness for C7: a single text run linking to a page of collection
`colB` from a page of collection `colA`. -/
theorem c7_cross_collection_link_witness :
    get_linked_page envW "colA" "pid1" = Except.error PyError.valueError ∧
    exceptIsOk (preprocess_notion_links envW "colA" scenarioCfg (some chunksW)) = false :=
  ⟨c7_cross_collection_link.1 envW "colA" "pid1" (by decide),
   c7_cross_collection_link.2 envW "colA" scenarioCfg chunksW (by decide)⟩

theorem getD_map_blk : ∀ (cs : List IBlock) (i : Nat),
    (cs.map IBlock.blk).getD i Block.divider = (cs.getD i defIBlock).blk := by
  intro cs
  induction cs with
  | nil => intro i; simp [defIBlock]
  | cons c cs ih =>
    intro i
    cases i with
    | zero => simp
    | succ n => simp only [List.map_cons, List.getD_cons_succ, ih]

theorem page2mdBlocks_getD :
    ∀ (bs : List Block) (c i : Nat), i < bs.length →
      (page2mdBlocks bs c).getD i "" =
        block2md (bs.getD i Block.divider) ((counterSeq bs c).getD i 0) := by
  intro bs
  induction bs with
  | nil =>
    intro c i h
    exact absurd h (Nat.not_lt_zero i)
  | cons b bs ih =>
    intro c i h
    cases i with
    | zero => simp [page2mdBlocks, counterSeq]
    | succ n =>
      simp only [page2mdBlocks, counterSeq, List.getD_cons_succ]
      exact ih _ n (Nat.lt_of_succ_lt_succ h)

theorem numberedListIndexAux_ok :
    ∀ (cs : List IBlock) (i c : Nat), i < cs.length →
      isNumberedBlock (cs.getD i defIBlock).blk = true →
      (∀ x ∈ cs.take i, x.id ≠ (cs.getD i defIBlock).id) →
      numberedListIndexAux ((cs.getD i defIBlock).id) cs c =
        Except.ok ((counterSeq (cs.map IBlock.blk) c).getD i 0) := by
  intro cs
  induction cs with
  | nil =>
    intro i c h
    exact absurd h (Nat.not_lt_zero i)
  | cons b bs ih =>
    intro i c h hnum hfresh
    cases i with
    | zero =>
      simp only [List.getD_cons_zero] at hnum hfresh ⊢
      simp only [numberedListIndexAux]
      rw [if_pos hnum]
      simp [counterSeq]
    | succ n =>
      simp only [List.getD_cons_succ] at hnum hfresh ⊢
      have hb : b.id ≠ (bs.getD n defIBlock).id :=
        hfresh b (by rw [List.take_succ_cons]; exact List.mem_cons_self _ _)
      have hrest : ∀ x ∈ bs.take n, x.id ≠ (bs.getD n defIBlock).id := fun x hx =>
        hfresh x (by rw [List.take_succ_cons]; exact List.mem_cons_of_mem _ hx)
      have hlen : n < bs.length := Nat.lt_of_succ_lt_succ h
      simp only [numberedListIndexAux]
      by_cases hn : isNumberedBlock b.blk = true
      · rw [if_pos hn, if_neg hb]
        simp only [List.map_cons, counterSeq, hn, if_true, List.getD_cons_succ]
        exact ih n (c + 1) hlen hnum hrest
      · rw [if_neg hn]
        have hn2 : isNumberedBlock b.blk = false := Bool.eq_false_iff.mpr hn
        simp only [List.map_cons, counterSeq, hn2, Bool.false_eq_true, if_false,
          List.getD_cons_succ]
        exact ih n 1 hlen hnum hrest

/-- C10: for a numbered block at position `i` of a page's children (whose
id does not occur earlier, as Notion block ids are unique), the
traversal-based `__numbered_list_index` returns exactly the counter value
that the spec state machine assigns position `i`, which is also the value
the `page2md` loop passes to `block2md` when rendering that block — the
two numbering implementations agree. -/
theorem c10_numbering_equiv :
    ∀ (cs : List IBlock) (i : Nat), i < cs.length →
      isNumberedBlock (cs.getD i defIBlock).blk = true →
      (∀ x ∈ cs.take i, x.id ≠ (cs.getD i defIBlock).id) →
      numbered_list_index cs ((cs.getD i defIBlock).id) =
        Except.ok ((counterSeq (cs.map IBlock.blk) 1).getD i 0) ∧
      (page2mdBlocks (cs.map IBlock.blk) 1).getD i "" =
        block2md ((cs.getD i defIBlock).blk) ((counterSeq (cs.map IBlock.blk) 1).getD i 0) := by
  intro cs i h hnum hfresh
  constructor
  · exact numberedListIndexAux_ok cs i 1 h hnum hfresh
  · rw [page2mdBlocks_getD (cs.map IBlock.blk) 1 i (by simpa using h), getD_map_blk]

/-- Witness for C10 at the scenario children [numbered, numbered,
paragraph, numbered], position 3: both numberings give 1. -/
theorem c10_numbering_equiv_witness :
    numbered_list_index csW ((csW.getD 3 defIBlock).id) =
      Except.ok ((counterSeq (csW.map IBlock.blk) 1).getD 3 0) ∧
    (page2mdBlocks (csW.map IBlock.blk) 1).getD 3 "" =
      block2md ((csW.getD 3 defIBlock).blk) ((counterSeq (csW.map IBlock.blk) 1).getD 3 0) :=
  c10_numbering_equiv csW 3 (by decide) (by decide) (by decide)

theorem lk_title_baseurl (v : Value) (l : List (String × Value)) :
    lookupKey "title" (setKey "baseurl" v l) = lookupKey "title" l :=
  lookup_setKey_ne (by decide) v l

theorem lk_cat_baseurl (v : Value) (l : List (String × Value)) :
    lookupKey "categories" (setKey "baseurl" v l) = lookupKey "categories" l :=
  lookup_setKey_ne (by decide) v l

theorem lk_cat_title (v : Value) (l : List (String × Value)) :
    lookupKey "categories" (setKey "title" v l) = lookupKey "categories" l :=
  lookup_setKey_ne (by decide) v l

theorem lk_pub_baseurl (v : Value) (l : List (String × Value)) :
    lookupKey "published_at" (setKey "baseurl" v l) = lookupKey "published_at" l :=
  lookup_setKey_ne (by decide) v l

theorem lk_pub_title (v : Value) (l : List (String × Value)) :
    lookupKey "published_at" (setKey "title" v l) = lookupKey "published_at" l :=
  lookup_setKey_ne (by decide) v l

theorem lk_pub_cat (v : Value) (l : List (String × Value)) :
    lookupKey "published_at" (setKey "categories" v l) = lookupKey "published_at" l :=
  lookup_setKey_ne (by decide) v l

theorem okTitle_shape {o : Option Value} (h : okTitle o = true) :
    o = none ∨ ∃ t, o = some (Value.str t) := by
  rcases o with _ | v
  · exact Or.inl rfl
  · cases v with
    | str t => exact Or.inr ⟨t, rfl⟩
    | boolean b => simp [okTitle] at h
    | strList l => simp [okTitle] at h
    | date d => simp [okTitle] at h
    | notionDate a b => simp [okTitle] at h
    | int n => simp [okTitle] at h
    | pyNone => simp [okTitle] at h
    | other t => simp [okTitle] at h

theorem okCategories_shape {o : Option Value} (h : okCategories o = true) :
    o = none ∨ ∃ l, o = some (Value.strList l) := by
  rcases o with _ | v
  · exact Or.inl rfl
  · cases v with
    | strList l => exact Or.inr ⟨l, rfl⟩
    | str t => simp [okCategories] at h
    | boolean b => simp [okCategories] at h
    | date d => simp [okCategories] at h
    | notionDate a b => simp [okCategories] at h
    | int n => simp [okCategories] at h
    | pyNone => simp [okCategories] at h
    | other t => simp [okCategories] at h

theorem okPublishedAt_shape {o : Option Value} (h : okPublishedAt o = true) :
    o = none ∨ ∃ d, o = some (Value.date d) := by
  rcases o with _ | v
  · exact Or.inl rfl
  · cases v with
    | date d => exact Or.inr ⟨d, rfl⟩
    | str t => simp [okPublishedAt] at h
    | boolean b => simp [okPublishedAt] at h
    | strList l => simp [okPublishedAt] at h
    | notionDate a b => simp [okPublishedAt] at h
    | int n => simp [okPublishedAt] at h
    | pyNone => simp [okPublishedAt] at h
    | other t => simp [okPublishedAt] at h

/-- C4: on a front matter whose `title`, `categories` and `published_at`
keys (when present) have the shapes the data model gives them, the
computed substitution mapping is exactly the spec's description — the
front matter extended with `baseurl` from the configuration, `title`
slugified, `categories` slash-joined or defaulted to the empty string,
and `year`/`month`/`day` extracted from `published_at` — and the scenario
pattern yields `https://x.io/2021/5/my-post`. -/
theorem c4_url_substitutions :
    (∀ (fm : List (String × Value)) (cfg : Config) (bu : Option String),
      Config.getitem cfg "baseurl" = Except.ok bu →
      wfFrontMatter fm = true →
      page_url_substitutions_fm fm cfg = Except.ok (spec_substitutions fm bu)) ∧
    build_page_url_fm scenarioFm scenarioPattern scenarioCfg =
      Except.ok "https://x.io/2021/5/my-post" := by
  refine ⟨?_, by decide⟩
  intro fm cfg bu hbu hwf
  have hw : okTitle (lookupKey "title" fm) = true ∧
      okCategories (lookupKey "categories" fm) = true ∧
      okPublishedAt (lookupKey "published_at" fm) = true := by
    simpa [wfFrontMatter, Bool.and_eq_true, and_assoc] using hwf
  obtain ⟨h1, h2, h3⟩ := hw
  rcases okTitle_shape h1 with htitle | ⟨t, htitle⟩ <;>
  rcases okCategories_shape h2 with hcat | ⟨cl, hcat⟩ <;>
  rcases okPublishedAt_shape h3 with hpub | ⟨pd, hpub⟩ <;>
    simp only [page_url_substitutions_fm, spec_substitutions, hbu, lk_title_baseurl, htitle,
      pusCategories, lk_cat_title, lk_cat_baseurl, hcat, pusPublishedAt, lk_pub_cat,
      lk_pub_title, lk_pub_baseurl, hpub]

/-- Witness for C4 at the scenario front matter and configuration. -/
theorem c4_url_substitutions_witness :
    page_url_substitutions_fm scenarioFm scenarioCfg =
      Except.ok (spec_substitutions scenarioFm (some "https://x.io")) :=
  c4_url_substitutions.1 scenarioFm scenarioCfg (some "https://x.io") (by decide) (by decide)
